import Mathlib

/-!
Verification of the af2_analysis ingestion/normalization/scoring core.

This file gives a shallow embedding of the `Data` class of
`src/af2_analysis/data.py` and of the default-format reader
(`src/af2_analysis/format/af3_webserver.py`), and proves or refutes the
frozen claims about them.

Modelling conventions:
- A pandas `DataFrame` is a `List` of row records; filtering and grouping
  are explicit list operations.
- Machine floats are modelled by `ℚ` (for the computable geometry and
  averaging) and `ℝ` (for the final logistic transform).  The IEEE value
  NaN that `np.mean` produces on an empty array is modelled explicitly:
  `npMean` returns `none` for an empty list, and the per-cell scoring
  result distinguishes a NaN-valued cell from the Python `None` absent
  marker.
- Exceptions raised by Python code (`IndexError`, `KeyError`,
  `ValueError`, a `json.load` failure) are modelled with `Except`: an
  `.error` result means the corresponding Python call raised and the
  surrounding loop was aborted at that point.
- Chain identifiers are single characters (PDB chain ids), modelled as
  `Char`; `np.unique` over them is "deduplicate, then sort".
-/

deriving instance DecidableEq for Except

/-! ## Structure model

One atom of a loaded coordinate file (`pdb_numpy.Coor`): chain id,
renumbered unique residue id (`uniq_resid`), atom name, position and the
per-atom confidence value stored in the beta/b-factor column. -/

structure Atom where
  chain : Char
  resid : ℕ
  atomName : String
  posx : ℚ
  posy : ℚ
  posz : ℚ
  beta : ℚ
deriving DecidableEq, Repr

/-- `np.unique` over an array of chain ids: the distinct values in sorted
order (NOT in order of first appearance). -/
def npUniqueChar (l : List Char) : List Char := List.insertionSort (· ≤ ·) l.dedup

/-- `np.unique` over an array of residue ids: distinct values, sorted. -/
def npUniqueNat (l : List ℕ) : List ℕ := List.insertionSort (· ≤ ·) l.dedup

/-- `data.py` line 66: `self.chains = list(np.unique(first_model.models[0].chain))`. -/
def datasetChains (m : List Atom) : List Char := npUniqueChar (m.map Atom.chain)

/-- `data.py` line 67: for each chain, the number of distinct `uniq_resid`
values among the atoms of that chain:
`len(np.unique(uniq_resid[chain == c]))`. -/
def datasetChainLength (m : List Atom) : List ℕ :=
  (datasetChains m).map
    (fun c => (npUniqueNat ((m.filter (fun a => a.chain == c)).map Atom.resid)).length)

/-- The chain ids of a structure in order of first appearance in the atom
sequence.  This is the spec's wording for the derived chain list; it is
stated here only to be compared with `datasetChains`, which is what the
code computes. -/
def firstAppearanceChains (l : List Char) : List Char :=
  l.foldl (fun acc a => if a ∈ acc then acc else acc ++ [a]) []

/-! ## Format dispatch (`Data.read_directory`, lines 53-62)

`read_directory` switches on the presence of a `log.txt` file: if present
the format is `colabfold_1.5`, otherwise the `default` reader is invoked
unconditionally.  There is no error branch. -/

inductive FormatTag where
  | colabfold15 : FormatTag
  | defaultFmt : FormatTag
deriving DecidableEq, Repr

/-- A directory is modelled by its file listing plus the parsed content of
any JSON file in it (`none` = file missing or unreadable, so `open` would
raise). A summary-confidence payload is a flat JSON object with scalar
values. -/
abbrev Json := List (String × ℚ)

structure DirListing where
  files : List String
  jsonContent : String → Option Json

/-- Python `str.endswith`: suffix test on the character sequence. -/
def strEndsWith (s suffix : String) : Bool := suffix.data.isSuffixOf s.data

/-- `data.py` lines 53-59: `if os.path.isfile(directory/log.txt)` the
format is `colabfold_1.5`, else it is `default`.  The dispatch is total:
every directory is routed to one of the two readers. -/
def selectFormat (files : List String) : FormatTag :=
  if "log.txt" ∈ files then FormatTag.colabfold15 else FormatTag.defaultFmt

/-- The colabfold_1.5 detection marker: a `log.txt` file at directory root. -/
def colabfoldMarker (files : List String) : Bool := decide ("log.txt" ∈ files)

/-- The default format's detection marker: per-model structure files
(`*.cif`), the files `format/af3_webserver.py` `read_dir` actually
consumes. -/
def defaultMarker (files : List String) : Bool := files.any (fun f => strEndsWith f ".cif")

/-- One raw record produced by the default reader for one `.cif` file
(`af3_webserver.py` lines 32-38): structure path, query, model index,
full-data JSON path, plus the summary-confidence keys merged verbatim. -/
structure DefRecord where
  pdbPath : String
  query : String
  model : ℕ
  jsonPath : String
  summary : Json
deriving DecidableEq, Repr

/-- `af3_webserver.py` lines 24-39, the body of the per-`.cif`-file loop:
split `file[:-4]` on `_`, `model = int(token[-1])` (raises on a
non-numeric token), `query = token[1]` (raises when absent), then open
`fold_<query>_summary_confidences_<model>.json` (raises when missing) and
merge its keys. -/
def parseCifFile (d : DirListing) (file : String) : Except Unit DefRecord :=
  let token := (file.dropRight 4).splitOn "_"
  match token.getLast?.bind String.toNat?, token.get? 1 with
  | some model, some query =>
    match d.jsonContent ("fold_" ++ query ++ "_summary_confidences_" ++ toString model ++ ".json") with
    | some summary =>
      Except.ok ⟨file, query, model,
        "fold_" ++ query ++ "_full_data_" ++ toString model ++ ".json", summary⟩
    | none => Except.error ()
  | _, _ => Except.error ()

/-- `af3_webserver.py` `read_dir`: iterate over the directory listing,
process every file ending in `.cif`.  An unparsable filename or a missing
companion JSON raises, aborting the read; a directory with no `.cif`
files yields an empty record list without any error. -/
def readDirDefault (d : DirListing) : Except Unit (List DefRecord) :=
  (d.files.filter (fun f => strEndsWith f ".cif")).mapM (parseCifFile d)

/-! ## Payload fan-in (`Data.extract_json`, lines 87-121) -/

inductive EJErr where
  | indexErr : EJErr
  | keyErr : EJErr
  | valueErr : EJErr
deriving DecidableEq, Repr

/-- The non-null payloads of the table, in row order (`json_list` in the
source; `index_list` is recoverable as the positions of the `some` rows). -/
def jsonListOf (rows : List (Option Json)) : List Json := rows.filterMap id

/-- `data.py` lines 112-113: `new_column[k] = []` for every key of
`json_list[0]` only. -/
def initColumns (j0 : Json) : List (String × List ℚ) :=
  j0.map (fun kv => (kv.1, ([] : List ℚ)))

/-- `new_column[key].append(v)`: append `v` to the column named `key`; a
key that was not initialised from the first payload raises `KeyError`. -/
def appendVal : List (String × List ℚ) → String → ℚ → Except EJErr (List (String × List ℚ))
  | [], _, _ => Except.error EJErr.keyErr
  | (k, vs) :: rest, key, v =>
    if k = key then Except.ok ((k, vs ++ [v]) :: rest)
    else
      match appendVal rest key v with
      | Except.ok rest2 => Except.ok ((k, vs) :: rest2)
      | Except.error e => Except.error e

/-- `data.py` line 115-116 inner loop: `for keys in data.keys():
new_column[keys].append(data[keys])`. -/
def fillFromPayload : List (String × List ℚ) → Json → Except EJErr (List (String × List ℚ))
  | cols, [] => Except.ok cols
  | cols, kv :: rest =>
    match appendVal cols kv.1 kv.2 with
    | Except.ok cols2 => fillFromPayload cols2 rest
    | Except.error e => Except.error e

/-- `data.py` line 114 outer loop: `for data in json_list`. -/
def fillColumns : List (String × List ℚ) → List Json → Except EJErr (List (String × List ℚ))
  | cols, [] => Except.ok cols
  | cols, d :: ds =>
    match fillFromPayload cols d with
    | Except.ok cols2 => fillColumns cols2 ds
    | Except.error e => Except.error e

/-- Placement of one finished column into the table: the column was
initialised to `np.nan` everywhere (modelled `none`) and the collected
values are written at the positions of the non-null payload rows, in
order (`self.df[keys].iloc[index_list] = new_col`). -/
def scatter : List (Option Json) → List ℚ → List (Option ℚ)
  | [], _ => []
  | none :: rs, vs => none :: scatter rs vs
  | some _ :: _, [] => []
  | some _ :: rs, v :: vs => some v :: scatter rs vs

/-- `data.py` lines 118-121 final loop: for each collected column build
`pd.Series(new_column[k], index=index_list)` — pandas raises `ValueError`
when the value list's length differs from `index_list` — and write it
into the dataframe. -/
def finalizeColumns (rows : List (Option Json)) (n : ℕ) :
    List (String × List ℚ) → Except EJErr (List (String × List (Option ℚ)))
  | [] => Except.ok []
  | (k, vs) :: rest =>
    if vs.length = n then
      match finalizeColumns rows n rest with
      | Except.ok cs => Except.ok ((k, scatter rows vs) :: cs)
      | Except.error e => Except.error e
    else Except.error EJErr.valueErr

/-- The body of `extract_json` once `json_list` has been collected:
`json_list[0]` raises `IndexError` on an empty list (line 112); the new
columns are then filled and written back. -/
def extractJsonCore (rows : List (Option Json)) :
    List Json → Except EJErr (List (String × List (Option ℚ)))
  | [] => Except.error EJErr.indexErr
  | j0 :: js =>
    match fillColumns (initColumns j0) (j0 :: js) with
    | Except.ok cols1 => finalizeColumns rows (j0 :: js).length cols1
    | Except.error e => Except.error e

/-- `Data.extract_json`: the table is represented by its `json` column
(`none` = null payload reference); the result is the list of added
columns, each a name plus one (possibly absent) value per row. -/
def extractJson (rows : List (Option Json)) : Except EJErr (List (String × List (Option ℚ))) :=
  extractJsonCore rows (jsonListOf rows)

/-! ## `Data.keep_last_recycle` (lines 154-160) -/

/-- One table row's identifying fields for the recycle filter. -/
structure MRow where
  query : String
  seed : ℕ
  model : ℕ
  weight : String
  recycle : ℕ
deriving DecidableEq, Repr

def rkey (r : MRow) : String × ℕ × ℕ × String := (r.query, r.seed, r.model, r.weight)

/-- `groupby(['query','seed','model','weight'])['recycle'].transform(max)`:
the maximum recycle value among the rows sharing the key `k`. -/
def maxRecycle (t : List MRow) (k : String × ℕ × ℕ × String) : ℕ :=
  ((t.filter (fun s => decide (rkey s = k))).map MRow.recycle).foldr max 0

/-- `data.py` lines 159-160: keep the rows whose recycle equals their
group's maximum. -/
def keepLastRecycle (t : List MRow) : List MRow :=
  t.filter (fun r => decide (maxRecycle t (rkey r) = r.recycle))

/-! ## Interface scorer (`Data.compute_pdockq2`, lines 302-365) -/

/-- Squared Euclidean distance between two atoms. -/
def distSq (a b : Atom) : ℚ :=
  (a.posx - b.posx) ^ 2 + (a.posy - b.posy) ^ 2 + (a.posz - b.posz) ^ 2

/-- `within 8.0 of` a reference selection: some reference atom lies within
the distance cutoff (compared on squared distances, `8.0 ^ 2 = 64`). -/
def withinCutoff (a : Atom) (s : List Atom) : Bool :=
  s.any (fun b => decide (distSq a b ≤ 64))

/-- `model.select_atoms('name CA')` (line 325). -/
def selectCA (m : List Atom) : List Atom := m.filter (fun a => a.atomName == "CA")

/-- Line 328: `(chain C and within 8 of not chain C) or
(not chain C and within 8 of chain C)`, evaluated inside `model_CA`. -/
def interfaceSel (c : Char) (mca : List Atom) : List Atom :=
  mca.filter (fun a =>
    (a.chain == c && withinCutoff a (mca.filter (fun b => b.chain != c))) ||
    (a.chain != c && withinCutoff a (mca.filter (fun b => b.chain == c))))

/-- Line 331: `chain C and within 8 of not chain C`. -/
def chainSelIf (c : Char) (mca : List Atom) : List Atom :=
  mca.filter (fun a => a.chain == c && withinCutoff a (mca.filter (fun b => b.chain != c)))

/-- Line 332: `not chain C and within 8 of chain C` (the doubled chain
token in the source selection string, `not chain {chain} {chain}`, is the
same set as `not chain {chain}`). -/
def interChainSelIf (c : Char) (mca : List Atom) : List Atom :=
  mca.filter (fun a => a.chain != c && withinCutoff a (mca.filter (fun b => b.chain == c)))

/-- `np.mean`: the mean of a NumPy array; the mean of an empty array is
the IEEE value NaN, modelled as `none`. -/
def npMean (l : List ℚ) : Option ℚ :=
  if l.isEmpty then none else some (l.sum / (l.length : ℚ))

/-- The elementwise PAE normalisation of line 351: `1/(1+(pae/d0)^2)` with
`d0 = 10.0`. -/
def paeNormalize (v : ℚ) : ℚ := 1 / (1 + (v / 10) ^ 2)

/-- `pae_array[i][j]`; `none` when an index is out of bounds, in which
case NumPy fancy indexing raises `IndexError`. -/
def paeAt (pae : List (List ℚ)) (i j : ℕ) : Option ℚ :=
  (pae.get? i).bind (fun row => row.get? j)

/-- The sub-block `pae_array[ris][:, cjs]` flattened to its entries;
`none` when any index is out of bounds. -/
def subBlockVals (pae : List (List ℚ)) (ris cjs : List ℕ) : Option (List ℚ) :=
  (ris.mapM (fun i => cjs.mapM (fun j => paeAt pae i j))).map List.flatten

/-- The fixed fitted constants of line 316. -/
def pdockq2L : ℚ := 1.31034849

def pdockq2X0 : ℚ := 84.7326239

def pdockq2K : ℚ := 0.0747157696

def pdockq2B : ℚ := 0.00501886443

/-- Lines 354-355: `x = norm_if_interpae * plddt_avg` and
`y = L / (1 + exp(-k*(x-x0))) + b`.  The logistic lives in `ℝ`
(`Real.exp`), so this interpretation function is the only noncomputable
definition; everything feeding it stays in `ℚ`. -/
noncomputable def pdockq2Formula (plddtAvg normIfInterpae : ℚ) : ℝ :=
  (pdockq2L : ℝ) /
      (1 + Real.exp (-(pdockq2K : ℝ) * (((normIfInterpae * plddtAvg : ℚ) : ℝ) - (pdockq2X0 : ℝ)))) +
    (pdockq2B : ℝ)

/-- The value stored in one per-chain pDockQ2 cell.  `absent` is the
Python `None` the code stores for rows with a null structure or payload
reference; `nan` is the IEEE NaN that propagates out of `np.mean` on an
empty selection through `x` and `y`; `val p n` records the two finite
inputs `plddt_avg = p` and `norm_if_interpae = n` of the logistic — the
float the code stores for such a cell is `pdockq2Formula p n`. -/
inductive CellVal where
  | absent : CellVal
  | nan : CellVal
  | val (plddtAvg normIfInterpae : ℚ) : CellVal
deriving DecidableEq, Repr

/-- Lines 324-357, the per-chain body of the scoring loop: select the CA
atoms, build the interface selections, average the betas of the interface
atoms and the normalised PAE sub-block (both through `np.mean`, hence NaN
on empty selections, which then propagates through `x` and `y`), and
apply the logistic.  An out-of-bounds residue index in either directional
sub-block raises (`Except.error`). -/
def cellCompute (c : Char) (m : List Atom) (pae : List (List ℚ)) : Except Unit CellVal :=
  let mca := selectCA m
  let plddtAvg := npMean ((interfaceSel c mca).map Atom.beta)
  let ris := (chainSelIf c mca).map Atom.resid
  let cjs := (interChainSelIf c mca).map Atom.resid
  match subBlockVals pae ris cjs, subBlockVals pae cjs ris with
  | some blk, some _ =>
    match plddtAvg, npMean (blk.map paeNormalize) with
    | some p, some n => Except.ok (CellVal.val p n)
    | _, _ => Except.ok CellVal.nan
  | _, _ => Except.error ()

/-- The content behind a row's `json` reference: a well-formed full-data
payload carrying the `pae` matrix, or a file whose `json.load` (or `pae`
lookup) raises. -/
inductive JsonFile where
  | wellFormed (pae : List (List ℚ)) : JsonFile
  | malformed : JsonFile
deriving DecidableEq, Repr

/-- One table row as seen by `compute_pdockq2`: the structure reference
(`none` = null / falsy `pdb` cell, with the loaded atom list behind a
non-null reference) and the payload reference. -/
structure SRow where
  pdb : Option (List Atom)
  json : Option JsonFile
deriving DecidableEq, Repr

/-- Lines 322-361, one iteration of the row loop: with both references
non-null the payload is opened (raising on a malformed file) and every
chain of the dataset's chain list is scored; otherwise `None` is appended
to every chain's column. -/
def rowScore (chains : List Char) (r : SRow) : Except Unit (List CellVal) :=
  match r.pdb, r.json with
  | some m, some (JsonFile.wellFormed pae) => chains.mapM (fun c => cellCompute c m pae)
  | some _, some JsonFile.malformed => Except.error ()
  | _, _ => Except.ok (List.replicate chains.length CellVal.absent)

/-- The whole scoring pass of `compute_pdockq2`: rows are processed in
order and an exception in any row aborts the pass (nothing is written
back in that case). The result holds one list of per-chain cells per row. -/
def computePdockq2 (chains : List Char) : List SRow → Except Unit (List (List CellVal))
  | [] => Except.ok []
  | r :: rs =>
    match rowScore chains r with
    | Except.error e => Except.error e
    | Except.ok cells =>
      match computePdockq2 chains rs with
      | Except.error e => Except.error e
      | Except.ok rest => Except.ok (cells :: rest)

/-! ## Concrete inputs used by the counterexamples, golden values and
witnesses -/

/-- A structure whose chains appear in the atom sequence as B before A. -/
def chainOrderModel : List Atom :=
  [⟨'B', 0, "CA", 0, 0, 0, 0⟩, ⟨'A', 1, "CA", 0, 0, 0, 0⟩]

/-- A directory that matches no known format: no `log.txt`, no `.cif`. -/
def unrecognizedDir : DirListing := ⟨["readme.md"], fun _ => none⟩

/-- Two payload-bearing rows with disjoint key sets, the spec's own
example (`{a:1}` and `{b:2}`). -/
def heteroRows : List (Option Json) := [some [("a", 1)], some [("b", 2)]]

/-- Three rows, two of which carry homogeneous payloads. -/
def homoRows : List (Option Json) := [some [("a", 1)], none, some [("a", 3)]]

/-- The columns `extract_json` produces on `homoRows`. -/
def homoCols : List (String × List (Option ℚ)) := [("a", [some 1, none, some 3])]

/-- A table in which every payload reference is null. -/
def allNullRows : List (Option Json) := [none, none]

/-- Two single-CA chains 100 Å apart: every interface selection for chain
A is empty. -/
def farA : Atom := ⟨'A', 0, "CA", 0, 0, 0, 50⟩

def farB : Atom := ⟨'B', 1, "CA", 100, 0, 0, 50⟩

def farModel : List Atom := [farA, farB]

/-- Two single-CA chains 4 Å apart with betas 40 and 60, so the interface
pLDDT average is 50. -/
def goldenA : Atom := ⟨'A', 0, "CA", 0, 0, 0, 40⟩

def goldenB : Atom := ⟨'B', 1, "CA", 4, 0, 0, 60⟩

def goldenModel : List Atom := [goldenA, goldenB]

/-- A 2x2 PAE matrix whose off-diagonal entries are 10, so each
normalised inter-chain entry is `1/(1+(10/10)^2) = 1/2`. -/
def goldenPae : List (List ℚ) := [[0, 10], [10, 0]]

/-- A row with both references null. -/
def nullRow : SRow := ⟨none, none⟩

/-- A row whose payload file cannot be parsed. -/
def malformedRow : SRow := ⟨some [farA], some JsonFile.malformed⟩

/-- A row with a well-formed single-chain payload. -/
def healthyRow : SRow := ⟨some [farA], some (JsonFile.wellFormed [[0]])⟩

/-! ## Theorems -/

/-! ### C9 — chain ids and chain lengths derived from the first structure -/

/-- Claim C9 counterexample: `np.unique` sorts, so for a structure whose
atom sequence lists chain B before chain A the stored chain list is
`['A', 'B']`, not the first-appearance order `['B', 'A']`. -/
theorem dataset_chains_not_first_appearance :
    datasetChains chainOrderModel = ['A', 'B'] ∧
    firstAppearanceChains (chainOrderModel.map Atom.chain) = ['B', 'A'] ∧
    datasetChains chainOrderModel ≠ firstAppearanceChains (chainOrderModel.map Atom.chain) :=
  ⟨by decide, by decide, by decide⟩

/-- Claim C9 (amended): the dataset's chain-id list is the set of distinct
chain ids of the structure in sorted order (not first-appearance order),
and for each chain of that list the stored chain length is the number of
distinct residue ids belonging to that chain. -/
theorem dataset_chain_metadata (m : List Atom) :
    (datasetChains m).Sorted (· ≤ ·) ∧
    (datasetChains m).Nodup ∧
    (∀ c, c ∈ datasetChains m ↔ c ∈ m.map Atom.chain) ∧
    datasetChainLength m =
      (datasetChains m).map
        (fun c => ((m.filter (fun a => a.chain == c)).map Atom.resid).dedup.length) := by
  refine ⟨List.sorted_insertionSort _ _,
    (List.perm_insertionSort _ _).nodup_iff.mpr (List.nodup_dedup _), ?_, ?_⟩
  · intro c
    unfold datasetChains npUniqueChar
    rw [(List.perm_insertionSort _ _).mem_iff, List.mem_dedup]
  · unfold datasetChainLength
    refine congrArg (fun f => List.map f (datasetChains m)) (funext fun c => ?_)
    exact (List.perm_insertionSort _ _).length_eq

/-! ### C3 — format detection in `read_directory` -/

/-- Claim C3 counterexample: a directory carrying neither the
colabfold_1.5 marker (`log.txt`) nor the default reader's marker
(`.cif` files) is still routed to the default reader and processed by it
(yielding an empty record table); no configuration error is raised. -/
theorem read_directory_unrecognized_still_processed :
    selectFormat unrecognizedDir.files = FormatTag.defaultFmt ∧
    colabfoldMarker unrecognizedDir.files = false ∧
    defaultMarker unrecognizedDir.files = false ∧
    readDirDefault unrecognizedDir = Except.ok [] :=
  ⟨by decide, by decide, by decide, rfl⟩

/-- Claim C3 (amended): `read_directory` selects the colabfold_1.5 reader
exactly when `log.txt` is present, and otherwise unconditionally selects
the default reader — also for directories matching no known format; no
configuration-error branch exists. -/
theorem select_format_total_dispatch (files : List String) :
    (selectFormat files = FormatTag.colabfold15 ↔ "log.txt" ∈ files) ∧
    (selectFormat files = FormatTag.defaultFmt ↔ "log.txt" ∉ files) := by
  unfold selectFormat
  by_cases h : "log.txt" ∈ files <;> simp [h]

/-! ### C4, C5 — `keep_last_recycle` -/

lemma mem_keepLastRecycle (t : List MRow) (r : MRow) :
    r ∈ keepLastRecycle t ↔ r ∈ t ∧ maxRecycle t (rkey r) = r.recycle := by
  simp [keepLastRecycle, List.mem_filter]

/-- Claim C4: `keep_last_recycle` retains exactly the rows whose recycle
count equals the maximum recycle within their (query, seed, model,
weight) group; in particular every row attaining the maximum survives. -/
theorem keep_last_recycle_keeps_group_max (t : List MRow) (r : MRow) :
    r ∈ keepLastRecycle t ↔ r ∈ t ∧ r.recycle = maxRecycle t (rkey r) := by
  rw [mem_keepLastRecycle]
  exact ⟨fun ⟨h1, h2⟩ => ⟨h1, h2.symm⟩, fun ⟨h1, h2⟩ => ⟨h1, h2.symm⟩⟩

lemma foldr_max_eq_of_all_eq (l : List ℕ) (m : ℕ) (hm : m ∈ l) (h : ∀ x ∈ l, x = m) :
    l.foldr max 0 = m := by
  induction l with
  | nil => cases hm
  | cons a l ih =>
    have ha : a = m := h a (List.mem_cons_self a l)
    cases l with
    | nil => simp [ha]
    | cons b l2 =>
      have hb : b = m := h b (by simp)
      have htail : (b :: l2).foldr max 0 = m :=
        ih (by simp [hb]) (fun x hx => h x (List.mem_cons_of_mem _ hx))
      calc (a :: b :: l2).foldr max 0 = max a ((b :: l2).foldr max 0) := rfl
        _ = max m m := by rw [ha, htail]
        _ = m := Nat.max_self m

lemma keepLastRecycle_eq_self {t : List MRow}
    (h : ∀ r ∈ t, maxRecycle t (rkey r) = r.recycle) : keepLastRecycle t = t :=
  List.filter_eq_self.mpr (fun r hr => decide_eq_true (h r hr))

/-- Claim C5: `keep_last_recycle` is idempotent — after the first pass
every surviving row's recycle is already its group's maximum within the
filtered table, so a second pass keeps everything. -/
theorem keep_last_recycle_idempotent (t : List MRow) :
    keepLastRecycle (keepLastRecycle t) = keepLastRecycle t := by
  apply keepLastRecycle_eq_self
  intro r hr
  obtain ⟨hrt, hrm⟩ := (mem_keepLastRecycle t r).mp hr
  unfold maxRecycle
  apply foldr_max_eq_of_all_eq
  · exact List.mem_map.mpr ⟨r, List.mem_filter.mpr ⟨hr, by simp⟩, rfl⟩
  · intro x hx
    obtain ⟨s, hs, rfl⟩ := List.mem_map.mp hx
    obtain ⟨hs1, hs2⟩ := List.mem_filter.mp hs
    have hk : rkey s = rkey r := of_decide_eq_true hs2
    obtain ⟨hst, hsm⟩ := (mem_keepLastRecycle t s).mp hs1
    rw [← hsm, hk, hrm]

/-! ### C2, C10 — `extract_json` payload fan-in -/

lemma appendVal_map_fst (cols : List (String × List ℚ)) (k : String) (v : ℚ) :
    ∀ cols2, appendVal cols k v = Except.ok cols2 →
      cols2.map Prod.fst = cols.map Prod.fst := by
  induction cols with
  | nil => intro cols2 h; simp [appendVal] at h
  | cons c rest ih =>
    obtain ⟨ck, cvs⟩ := c
    intro cols2 h
    rw [appendVal] at h
    split at h
    · injection h with h2
      subst h2
      simp
    · split at h
      next rest2 heq =>
        injection h with h2
        subst h2
        simpa using ih rest2 heq
      next => cases h

lemma fillFromPayload_map_fst (data : Json) :
    ∀ cols cols2, fillFromPayload cols data = Except.ok cols2 →
      cols2.map Prod.fst = cols.map Prod.fst := by
  induction data with
  | nil =>
    intro cols cols2 h
    rw [fillFromPayload] at h
    injection h with h2
    rw [h2]
  | cons kv rest ih =>
    intro cols cols2 h
    rw [fillFromPayload] at h
    split at h
    next cols3 heq => exact (ih cols3 cols2 h).trans (appendVal_map_fst cols kv.1 kv.2 cols3 heq)
    next => cases h

lemma fillColumns_map_fst (ds : List Json) :
    ∀ cols cols2, fillColumns cols ds = Except.ok cols2 →
      cols2.map Prod.fst = cols.map Prod.fst := by
  induction ds with
  | nil =>
    intro cols cols2 h
    rw [fillColumns] at h
    injection h with h2
    rw [h2]
  | cons d rest ih =>
    intro cols cols2 h
    rw [fillColumns] at h
    split at h
    next cols3 heq => exact (ih cols3 cols2 h).trans (fillFromPayload_map_fst d cols cols3 heq)
    next => cases h

lemma finalizeColumns_map_fst (rows : List (Option Json)) (n : ℕ) :
    ∀ cols cs, finalizeColumns rows n cols = Except.ok cs →
      cs.map Prod.fst = cols.map Prod.fst := by
  intro cols
  induction cols with
  | nil =>
    intro cs h
    rw [finalizeColumns] at h
    injection h with h2
    subst h2
    rfl
  | cons c rest ih =>
    obtain ⟨ck, cvs⟩ := c
    intro cs h
    rw [finalizeColumns] at h
    split at h
    · split at h
      next cs2 heq =>
        injection h with h2
        subst h2
        simpa using ih cs2 heq
      next => cases h
    · cases h

/-- Claim C2 counterexample: on the spec's own example — one payload
`{a:1}` and one payload `{b:2}` — `extract_json` raises `KeyError`
(key `b` was never initialised from the first payload) instead of
producing the two union columns. -/
theorem extract_json_heterogeneous_keys_raise :
    extractJson heteroRows = Except.error EJErr.keyErr := rfl

/-- Claim C2 (amended): the column set `extract_json` adds is the key set
of the FIRST non-null payload, not the union over all payloads; when it
completes without raising, the added column names are exactly the first
payload's keys (heterogeneous key sets instead raise `KeyError` or a
`pd.Series` length `ValueError`). -/
theorem extract_json_columns_from_first_payload (rows : List (Option Json))
    (cols : List (String × List (Option ℚ))) (j0 : Json) (js : List Json)
    (h0 : jsonListOf rows = j0 :: js)
    (h : extractJson rows = Except.ok cols) :
    cols.map Prod.fst = j0.map Prod.fst := by
  unfold extractJson at h
  rw [h0, extractJsonCore] at h
  split at h
  next cols1 heq =>
    have h1 := finalizeColumns_map_fst rows (j0 :: js).length cols1 cols h
    have h2 := fillColumns_map_fst (j0 :: js) (initColumns j0) cols1 heq
    have h3 : (initColumns j0).map Prod.fst = j0.map Prod.fst := by simp [initColumns]
    rw [h1, h2, h3]
  next => cases h

/-- Witness: on two homogeneous payloads `{a:1}` and `{a:3}` separated by
a payload-less row, `extract_json` completes and the single added column
is `a`, i.e. the first payload's key set. -/
theorem extract_json_columns_from_first_payload_witness :
    jsonListOf homoRows = [("a", 1)] :: [[("a", 3)]] ∧
    extractJson homoRows = Except.ok homoCols ∧
    homoCols.map Prod.fst = [("a", (1 : ℚ))].map Prod.fst :=
  ⟨rfl, rfl,
    extract_json_columns_from_first_payload homoRows homoCols [("a", 1)] [[("a", 3)]] rfl rfl⟩

/-- Claim C10: when every row's payload reference is null (in particular
when the table is empty), `json_list` is empty and `extract_json` raises
`IndexError` at `json_list[0]` instead of leaving the table unchanged. -/
theorem extract_json_all_null_payloads_raise (rows : List (Option Json))
    (h : ∀ r ∈ rows, r = none) : extractJson rows = Except.error EJErr.indexErr := by
  have hnil : jsonListOf rows = [] := by
    rw [jsonListOf, List.filterMap_eq_nil_iff]
    exact h
  unfold extractJson
  rw [hnil, extractJsonCore]

/-- Witness: a two-row table whose payload references are both null makes
`extract_json` raise `IndexError`. -/
theorem extract_json_all_null_payloads_raise_witness :
    (∀ r ∈ allNullRows, r = none) ∧ extractJson allNullRows = Except.error EJErr.indexErr :=
  ⟨by decide, extract_json_all_null_payloads_raise allNullRows (by decide)⟩

/-! ### C1, C6 — per-chain pDockQ2 cells -/

/-- Claim C1 (the code, not the claim, is at fault): for a row whose
chains are farther apart than the 8 Å cutoff the interface selection of
chain A is empty, and the stored per-chain value is the NaN produced by
`np.mean` over the empty selection — not the absent marker (the guard
that would store `None` is commented out at lines 342-345 of the source). -/
theorem pdockq2_empty_interface_stores_nan :
    cellCompute 'A' farModel goldenPae = Except.ok CellVal.nan ∧
    CellVal.nan ≠ CellVal.absent := by
  have h1 : interfaceSel 'A' (selectCA farModel) = [] := by
    simp [interfaceSel, selectCA, farModel, farA, farB, withinCutoff, distSq]
    norm_num
  have h2 : chainSelIf 'A' (selectCA farModel) = [] := by
    simp [chainSelIf, selectCA, farModel, farA, farB, withinCutoff, distSq]
    norm_num
  have h3 : interChainSelIf 'A' (selectCA farModel) = [] := by
    simp [interChainSelIf, selectCA, farModel, farA, farB, withinCutoff, distSq]
    norm_num
  have s0 : subBlockVals goldenPae [] [] = some [] := rfl
  refine ⟨?_, by decide⟩
  simp [cellCompute, h1, h2, h3, s0, npMean]

/-- Claim C6: on a two-chain structure whose interface betas average to
`plddt_avg = 50` and whose normalised inter-chain PAE block averages to
`norm_if_interpae = 1/2`, the stored cell is the logistic applied to
those two values, `x = (1/2) * 50 = 25`, and the stored score equals
`L / (1 + exp(-k*(25 - x0))) + b` with the fixed fitted constants. -/
theorem pdockq2_formula_golden :
    cellCompute 'A' goldenModel goldenPae = Except.ok (CellVal.val 50 (1 / 2)) ∧
    ((1 / 2 : ℚ) * 50 = 25) ∧
    pdockq2Formula 50 (1 / 2) =
      (pdockq2L : ℝ) / (1 + Real.exp (-(pdockq2K : ℝ) * (25 - (pdockq2X0 : ℝ)))) +
        (pdockq2B : ℝ) := by
  have h1 : interfaceSel 'A' (selectCA goldenModel) = [goldenA, goldenB] := by
    simp [interfaceSel, selectCA, goldenModel, goldenA, goldenB, withinCutoff, distSq]
    norm_num
  have h2 : chainSelIf 'A' (selectCA goldenModel) = [goldenA] := by
    simp [chainSelIf, selectCA, goldenModel, goldenA, goldenB, withinCutoff, distSq]
    norm_num
    all_goals decide
  have h3 : interChainSelIf 'A' (selectCA goldenModel) = [goldenB] := by
    simp [interChainSelIf, selectCA, goldenModel, goldenA, goldenB, withinCutoff, distSq]
    norm_num
  have h4 : npMean [(40 : ℚ), 60] = some 50 := by norm_num [npMean]
  have h5 : npMean [paeNormalize (10 : ℚ)] = some (1 / 2) := by
    norm_num [npMean, paeNormalize]
  have s1 : subBlockVals goldenPae [0] [1] = some [10] := rfl
  have s2 : subBlockVals goldenPae [1] [0] = some [10] := rfl
  refine ⟨?_, by norm_num, ?_⟩
  · simp [cellCompute, h1, h2, h3, goldenA, goldenB, s1, s2, h4, h5]
  · unfold pdockq2Formula
    norm_num

/-! ### C7, C8 — row-level failure semantics of `compute_pdockq2` -/

lemma computePdockq2_get (chains : List Char) (rows : List SRow) :
    ∀ res, computePdockq2 chains rows = Except.ok res →
      ∀ i r, rows.get? i = some r →
        ∃ cells, rowScore chains r = Except.ok cells ∧ res.get? i = some cells := by
  induction rows with
  | nil => intro res h i r hi; simp at hi
  | cons r0 rs ih =>
    intro res h i r hi
    cases hrow : rowScore chains r0 with
    | error e => rw [computePdockq2, hrow] at h; cases h
    | ok cells =>
      cases hrest : computePdockq2 chains rs with
      | error e => rw [computePdockq2, hrow, hrest] at h; cases h
      | ok rest =>
        rw [computePdockq2, hrow, hrest] at h
        injection h with h2
        subst h2
        cases i with
        | zero =>
          injection hi with h3
          subst h3
          exact ⟨cells, hrow, rfl⟩
        | succ n =>
          simp only [List.get?_cons_succ] at hi ⊢
          exact ih rest hrest n r hi

/-- Claim C7: whenever the scoring pass completes, a row with a null
structure or payload reference has received the absent marker in the
pDockQ2 cell of every chain of the dataset's chain list, and no score was
computed for it. -/
theorem compute_pdockq2_null_refs_absent (chains : List Char) (rows : List SRow)
    (res : List (List CellVal)) (i : ℕ) (r : SRow)
    (h : computePdockq2 chains rows = Except.ok res)
    (hi : rows.get? i = some r)
    (hnull : r.pdb = none ∨ r.json = none) :
    res.get? i = some (List.replicate chains.length CellVal.absent) := by
  obtain ⟨cells, hrow, hres⟩ := computePdockq2_get chains rows res h i r hi
  have hr : rowScore chains r = Except.ok (List.replicate chains.length CellVal.absent) := by
    rcases hnull with h1 | h1
    · rw [rowScore, h1]
    · cases hp : r.pdb with
      | none => rw [rowScore, hp]
      | some m => rw [rowScore, hp, h1]
  rw [hr] at hrow
  injection hrow with h2
  rw [hres, ← h2]

/-- Witness: a one-row table whose single row has both references null
scores to a single absent cell. -/
theorem compute_pdockq2_null_refs_absent_witness :
    computePdockq2 ['A'] [nullRow] = Except.ok [[CellVal.absent]] ∧
    [nullRow].get? 0 = some nullRow ∧
    (nullRow.pdb = none ∨ nullRow.json = none) ∧
    [[CellVal.absent]].get? 0 = some (List.replicate ['A'].length CellVal.absent) :=
  ⟨rfl, rfl, Or.inl rfl,
    compute_pdockq2_null_refs_absent ['A'] [nullRow] [[CellVal.absent]] 0 nullRow rfl rfl
      (Or.inl rfl)⟩

/-- Claim C8 counterexample: a malformed payload in the first row aborts
the whole scoring pass — the second, healthy row is never scored and no
column is written — instead of turning only the first row's score into
the absent marker. -/
theorem compute_pdockq2_malformed_aborts_pass :
    computePdockq2 ['A'] [malformedRow, healthyRow] = Except.error () := rfl

/-- Claim C8 (amended): only a NULL structure or payload reference is
row-scoped (the row gets the absent marker and processing continues, as
in C7); a malformed or unreadable payload behind a non-null reference
raises inside the row loop and is fatal for the whole scoring pass: no
result table exists. -/
theorem compute_pdockq2_malformed_row_fatal (chains : List Char) (rows : List SRow)
    (r : SRow) (m : List Atom) (hpdb : r.pdb = some m)
    (hjson : r.json = some JsonFile.malformed) (hmem : r ∈ rows) :
    ∀ res, computePdockq2 chains rows ≠ Except.ok res := by
  revert hmem
  induction rows with
  | nil => intro hmem; cases hmem
  | cons r0 rs ih =>
    intro hmem res h
    rcases List.mem_cons.mp hmem with rfl | hmem2
    · have hrow : rowScore chains r = Except.error () := by
        rw [rowScore, hpdb, hjson]
      rw [computePdockq2, hrow] at h
      cases h
    · cases hrow : rowScore chains r0 with
      | error e => rw [computePdockq2, hrow] at h; cases h
      | ok cells =>
        cases hrest : computePdockq2 chains rs with
        | error e => rw [computePdockq2, hrow, hrest] at h; cases h
        | ok rest => exact ih hmem2 rest hrest

/-- Witness: the malformed two-row table of the counterexample satisfies
the hypotheses, and no completed result exists for it. -/
theorem compute_pdockq2_malformed_row_fatal_witness :
    malformedRow.pdb = some [⟨'A', 0, "CA", 0, 0, 0, 50⟩] ∧
    malformedRow.json = some JsonFile.malformed ∧
    malformedRow ∈ [malformedRow, healthyRow] ∧
    ∀ res, computePdockq2 ['A'] [malformedRow, healthyRow] ≠ Except.ok res :=
  ⟨rfl, rfl, List.mem_cons_self _ _,
    compute_pdockq2_malformed_row_fatal ['A'] [malformedRow, healthyRow] malformedRow
      [⟨'A', 0, "CA", 0, 0, 0, 50⟩] rfl rfl (List.mem_cons_self _ _)⟩
